/-
Verification of the orchestration core of the restaurant-chain-advisor
repository: a shallow embedding in Lean 4 of the router, permission gate,
context aggregator, hybrid-search fusion and tiered memory manager, with
theorems settling the specification claims about them.

Conventions of the embedding:
- Python dictionaries are modelled as association lists `List (String × α)`
  with insertion-ordered update semantics (`dictSet` replaces in place,
  appends when absent), matching CPython dict behaviour.
- Python floats are modelled as rationals `ℚ`; the properties proved are
  order/equality properties that hold in both arithmetics for the list
  sizes the code can produce.
- Fallible Python code is modelled with `Except String`; a raised and
  uncaught exception is an `Except.error` carrying the exception name.
- Wall-clock values (`time.time()`) are threaded as explicit `ℚ`
  parameters where the source calls them.
-/

import Mathlib

namespace RestaurantAdvisor

/-- Update an insertion-ordered dictionary (CPython dict semantics): if the
key is present, replace its value in place; otherwise append the binding. -/
def dictSet {α : Type} (l : List (String × α)) (k : String) (v : α) :
    List (String × α) :=
  match l with
  | [] => [(k, v)]
  | (k0, v0) :: rest =>
      if k0 = k then (k, v) :: rest else (k0, v0) :: dictSet rest k v

/-- Lookup in an insertion-ordered dictionary, `d.get(k, default)`. -/
def dictGet {α : Type} (l : List (String × α)) (k : String) (default : α) : α :=
  ((l.lookup k).getD default)

/-- Is the first character list a prefix of the second? -/
def listPrefixOf : List Char → List Char → Bool
  | [], _ => true
  | _ :: _, [] => false
  | a :: as, b :: bs => a = b && listPrefixOf as bs

/-- Does the first character list occur contiguously inside the second? -/
def listInfixOf (needle : List Char) (haystack : List Char) : Bool :=
  match haystack with
  | [] => listPrefixOf needle []
  | _ :: t => listPrefixOf needle haystack || listInfixOf needle t

/-- Python substring test `needle in haystack` on strings. -/
def substrIn (needle haystack : String) : Bool :=
  listInfixOf needle.toList haystack.toList

/-- Python `s.lower()` (ASCII case folding, which is all the code applies
it to).  Defined by structural recursion over the character data so it
evaluates inside the kernel. -/
def pyLower (s : String) : String :=
  ⟨s.data.map Char.toLower⟩

/-- Python slice `s[:n]` on strings. -/
def pyTakeStr (s : String) (n : Nat) : String :=
  ⟨s.data.take n⟩

/-- Python slice `l[-n:]` for a nonnegative `n`.  Note the CPython edge
case: `l[-0:]` is `l[0:]`, the whole list, not the empty list. -/
def pySliceLast {α : Type} (l : List α) (n : Nat) : List α :=
  if n = 0 then l else l.drop (l.length - n)

/- ===================== memory_management.py ===================== -/

/-- Embedding of the langchain message objects the memory store holds: a
role tag (`HumanMessage` / `AIMessage` / `SystemMessage`) plus content,
which is all the persistence layer reads of them. -/
inductive BaseMessage : Type
  | humanMessage (content : String)
  | aiMessage (content : String)
  | systemMessage (content : String)
deriving DecidableEq, Repr

/-- Content field shared by all message classes. -/
def BaseMessage.content : BaseMessage → String
  | .humanMessage c => c
  | .aiMessage c => c
  | .systemMessage c => c

/-- Python `type(msg).__name__` for the three message classes. -/
def BaseMessage.typeName : BaseMessage → String
  | .humanMessage _ => "HumanMessage"
  | .aiMessage _ => "AIMessage"
  | .systemMessage _ => "SystemMessage"

/-- State of `ShortTermMemory` (memory_management.py).  The wall-clock
`timestamp` field is updated from `time.time()` in the source; the claims
settled here do not depend on it, so it is threaded as a rational. -/
structure ShortTermMemory : Type where
  max_size : Nat
  messages : List BaseMessage
  timestamp : ℚ
deriving DecidableEq, Repr

/-- Constructor `ShortTermMemory(max_size=10)` with `now = time.time()`. -/
def ShortTermMemory.mk0 (now : ℚ) (max_size : Nat := 10) : ShortTermMemory :=
  ⟨max_size, [], now⟩

/-- `ShortTermMemory.add_message`: append, then trim with `messages[-max_size:]`
when the length exceeds `max_size`, then refresh the timestamp. -/
def ShortTermMemory.add_message (st : ShortTermMemory) (m : BaseMessage)
    (now : ℚ) : ShortTermMemory :=
  let ms := st.messages ++ [m]
  let ms := if ms.length > st.max_size then pySliceLast ms st.max_size else ms
  ⟨st.max_size, ms, now⟩

/-- Appending a whole sequence of messages through `add_message`. -/
def ShortTermMemory.add_all (st : ShortTermMemory) (ms : List BaseMessage)
    (now : ℚ) : ShortTermMemory :=
  ms.foldl (fun acc m => acc.add_message m now) st

/-- State of `LongTermMemory` (memory_management.py).  Insight payloads are
arbitrary JSON values in the source; they are carried here as strings since
no claim inspects their structure. -/
structure LongTermMemory : Type where
  facts : List String
  preferences : List (String × String)
  last_queries : List String
  insights : List (String × String)
deriving DecidableEq, Repr

def LongTermMemory.mk0 : LongTermMemory := ⟨[], [], [], []⟩

/-- `LongTermMemory.add_fact`: append if not already present. -/
def LongTermMemory.add_fact (lt : LongTermMemory) (fact : String) :
    LongTermMemory :=
  if fact ∈ lt.facts then lt else { lt with facts := lt.facts ++ [fact] }

/-- `LongTermMemory.add_preference`: `self.preferences[key] = value`. -/
def LongTermMemory.add_preference (lt : LongTermMemory) (key value : String) :
    LongTermMemory :=
  { lt with preferences := dictSet lt.preferences key value }

/-- `LongTermMemory.add_query`: append, keep only the last 20. -/
def LongTermMemory.add_query (lt : LongTermMemory) (query : String) :
    LongTermMemory :=
  let qs := lt.last_queries ++ [query]
  let qs := if qs.length > 20 then pySliceLast qs 20 else qs
  { lt with last_queries := qs }

/-- State of `UserMemory` (memory_management.py).  Session payloads are
arbitrary values in the source, carried here as strings. -/
structure UserMemory : Type where
  user_id : String
  short_term : ShortTermMemory
  long_term : LongTermMemory
  session_data : List (String × String)
  last_activity : ℚ
deriving DecidableEq, Repr

/-- Constructor `UserMemory(user_id)` with `now = time.time()`. -/
def UserMemory.mk0 (user_id : String) (now : ℚ) : UserMemory :=
  ⟨user_id, ShortTermMemory.mk0 now, LongTermMemory.mk0, [], now⟩

/-- `UserMemory.update_activity`. -/
def UserMemory.update_activity (u : UserMemory) (now : ℚ) : UserMemory :=
  { u with last_activity := now }

/-- Is the message an instance of `HumanMessage`? -/
def BaseMessage.isHuman : BaseMessage → Bool
  | .humanMessage _ => true
  | _ => false

/-- `UserMemory.add_message`: push into the short-term window, touch the
activity timestamp, and record human messages into the query history. -/
def UserMemory.add_message (u : UserMemory) (m : BaseMessage) (now : ℚ) :
    UserMemory :=
  let u := { u with short_term := u.short_term.add_message m now }
  let u := u.update_activity now
  if m.isHuman then
    { u with long_term := u.long_term.add_query m.content }
  else u

/-- Keyword table for cuisine preferences in `UserMemory.extract_preferences`,
in source order. -/
def cuisine_keywords : List (String × String) :=
  [("italian", "Italian"), ("chinese", "Chinese"), ("indian", "Indian"),
   ("mexican", "Mexican"), ("thai", "Thai"), ("japanese", "Japanese"),
   ("french", "French"), ("mediterranean", "Mediterranean"),
   ("american", "American"), ("middle eastern", "Middle Eastern"),
   ("south indian", "South Indian"), ("north indian", "North Indian"),
   ("punjabi", "Punjabi"), ("bengali", "Bengali"), ("gujarati", "Gujarati")]

/-- Keyword table for city preferences in `UserMemory.extract_preferences`. -/
def city_keywords : List (String × String) :=
  [("mumbai", "Mumbai"), ("delhi", "Delhi"), ("bangalore", "Bangalore"),
   ("chennai", "Chennai"), ("hyderabad", "Hyderabad"), ("kolkata", "Kolkata"),
   ("pune", "Pune"), ("ahmedabad", "Ahmedabad"), ("jaipur", "Jaipur"),
   ("lucknow", "Lucknow")]

/-- Phrase table for budget preferences in `UserMemory.extract_preferences`. -/
def budget_phrases : List (String × String) :=
  [("low budget", "Low"), ("budget friendly", "Low"), ("affordable", "Low"),
   ("mid budget", "Medium"), ("medium budget", "Medium"),
   ("moderate", "Medium"), ("high budget", "High"), ("luxury", "High"),
   ("premium", "High"), ("expensive", "High")]

/-- Run one keyword table over the lowercased content: each matching entry
overwrites the given preference key in turn. -/
def scanTable (lt : LongTermMemory) (content : String) (key : String)
    (table : List (String × String)) : LongTermMemory :=
  table.foldl
    (fun acc kv =>
      if substrIn kv.1 content then acc.add_preference key kv.2 else acc)
    lt

/-- `UserMemory.extract_preferences`: lowercase the message content, then scan
the cuisine, city and budget tables in order, overwriting the corresponding
preference key on every match. -/
def UserMemory.extract_preferences (u : UserMemory) (m : BaseMessage) :
    UserMemory :=
  let content := pyLower m.content
  let lt := scanTable u.long_term content "cuisine" cuisine_keywords
  let lt := scanTable lt content "city" city_keywords
  let lt := scanTable lt content "budget" budget_phrases
  { u with long_term := lt }

/-- State of `MemoryManager` (memory_management.py). -/
structure MemoryManager : Type where
  users : List (String × UserMemory)
  session_timeout : ℚ
deriving DecidableEq, Repr

/-- Constructor `MemoryManager(session_timeout=3600)`. -/
def MemoryManager.mk0 (session_timeout : ℚ := 3600) : MemoryManager :=
  ⟨[], session_timeout⟩

/-- `MemoryManager.get_user_memory`: lazily create the record, update its
activity timestamp, and return the pair (updated manager, record). -/
def MemoryManager.get_user_memory (mgr : MemoryManager) (user_id : String)
    (now : ℚ) : MemoryManager × UserMemory :=
  let u := dictGet mgr.users user_id (UserMemory.mk0 user_id now)
  let u := u.update_activity now
  ({ mgr with users := dictSet mgr.users user_id u }, u)

/-- `MemoryManager.process_message`: fetch (or create) the user record, add
the message, and extract preferences from human messages. -/
def MemoryManager.process_message (mgr : MemoryManager) (user_id : String)
    (m : BaseMessage) (now : ℚ) : MemoryManager :=
  let (mgr, u) := mgr.get_user_memory user_id now
  let u := u.add_message m now
  let u := if m.isHuman then u.extract_preferences m else u
  { mgr with users := dictSet mgr.users user_id u }

/-- One per-user record of the persisted memory file, mirroring the JSON
object written by `MemoryManager.save_to_disk`. -/
structure SavedUser : Type where
  st_messages : List (String × String)
  st_timestamp : ℚ
  facts : List String
  preferences : List (String × String)
  last_queries : List String
  insights : List (String × String)
  session_data : List (String × String)
  last_activity : ℚ
deriving DecidableEq, Repr

/-- Per-user body of the serialization loop in `MemoryManager.save_to_disk`:
messages are written as (type name, content) pairs only. -/
def saveUser (u : UserMemory) : SavedUser :=
  { st_messages := u.short_term.messages.map (fun m => (m.typeName, m.content)),
    st_timestamp := u.short_term.timestamp,
    facts := u.long_term.facts,
    preferences := u.long_term.preferences,
    last_queries := u.long_term.last_queries,
    insights := u.long_term.insights,
    session_data := u.session_data,
    last_activity := u.last_activity }

/-- `MemoryManager.save_to_disk`: serialize every user record. -/
def MemoryManager.save_to_disk (mgr : MemoryManager) :
    List (String × SavedUser) :=
  mgr.users.map (fun p => (p.1, saveUser p.2))

/-- Errors caught by the `except` clause of `MemoryManager.load_from_disk`. -/
inductive FileError : Type
  | fileNotFound
  | jsonDecodeError (msg : String)
deriving DecidableEq, Repr

/-- Decode one persisted (type name, content) pair back into a message
object; unknown type names are skipped (`continue` in the source). -/
def decodeMessage : String × String → Option BaseMessage
  | ("HumanMessage", c) => some (.humanMessage c)
  | ("AIMessage", c) => some (.aiMessage c)
  | ("SystemMessage", c) => some (.systemMessage c)
  | _ => none

/-- Rebuild one `UserMemory` from its persisted record, as the body of the
per-user loop in `MemoryManager.load_from_disk` does: replay the messages
through `short_term.add_message` on a fresh record, then overwrite the
remaining fields from the file. -/
def restoreUser (user_id : String) (d : SavedUser) (now : ℚ) : UserMemory :=
  let u := UserMemory.mk0 user_id now
  let st := d.st_messages.foldl
    (fun st pair =>
      match decodeMessage pair with
      | some m => st.add_message m now
      | none => st)
    u.short_term
  let st := { st with timestamp := d.st_timestamp }
  { u with
    short_term := st,
    long_term :=
      { facts := d.facts, preferences := d.preferences,
        last_queries := d.last_queries, insights := d.insights },
    session_data := d.session_data,
    last_activity := d.last_activity }

/-- `MemoryManager.load_from_disk`: the file read and JSON parse happen
first; a `FileNotFoundError` or `json.JSONDecodeError` is caught, printed
and swallowed, leaving the manager untouched.  On success every persisted
user record is rebuilt and stored under its user id. -/
def MemoryManager.load_from_disk (mgr : MemoryManager)
    (file : Except FileError (List (String × SavedUser))) (now : ℚ) :
    MemoryManager :=
  match file with
  | .error _ => mgr
  | .ok data =>
      { mgr with
        users := data.foldl
          (fun us p => dictSet us p.1 (restoreUser p.1 p.2 now)) mgr.users }

/- ===================== lemmas about the short-term window ===================== -/

/-- Appending on the left of a right-take and right-taking again is the same
as right-taking the whole concatenation. -/
theorem rtake_append_rtake {α : Type} (a b : List α) (n : Nat) :
    ((a.rtake n) ++ b).rtake n = (a ++ b).rtake n := by
  simp only [List.rtake_eq_reverse_take_reverse, List.reverse_append,
    List.reverse_reverse]
  rw [List.take_append_eq_append_take, List.take_append_eq_append_take,
    List.take_take, Nat.min_eq_left (Nat.sub_le _ _)]

/-- A right-take of at least the whole length is the identity. -/
theorem rtake_of_length_le {α : Type} (l : List α) (n : Nat)
    (h : l.length ≤ n) : l.rtake n = l := by
  rw [List.rtake, Nat.sub_eq_zero_of_le h, List.drop_zero]

/-- A right-take never yields more than `n` elements. -/
theorem length_rtake_le {α : Type} (l : List α) (n : Nat) :
    (l.rtake n).length ≤ n := by
  rw [List.rtake, List.length_drop]
  omega

/-- For a nonzero count the Python slice `l[-n:]` is the right-take. -/
theorem pySliceLast_eq_rtake {α : Type} (l : List α) (n : Nat) (h : n ≠ 0) :
    pySliceLast l n = l.rtake n := by
  simp [pySliceLast, h, List.rtake]

/-- With a positive capacity, one `add_message` leaves exactly the
right-take of the extended message list. -/
theorem add_message_messages (st : ShortTermMemory) (m : BaseMessage)
    (now : ℚ) (h : 1 ≤ st.max_size) :
    (st.add_message m now).messages = (st.messages ++ [m]).rtake st.max_size := by
  unfold ShortTermMemory.add_message
  by_cases hgt : (st.messages ++ [m]).length > st.max_size
  · simp only [hgt, if_pos]
    exact pySliceLast_eq_rtake _ _ (by omega)
  · simp only [hgt, if_neg, if_false]
    exact (rtake_of_length_le _ _ (by omega)).symm

/-- With a positive capacity, appending any message sequence leaves exactly
the right-take of the concatenation of old and new messages. -/
theorem add_all_messages (ms : List BaseMessage) (st : ShortTermMemory)
    (now : ℚ) (h : 1 ≤ st.max_size) (hlen : st.messages.length ≤ st.max_size) :
    (st.add_all ms now).messages = (st.messages ++ ms).rtake st.max_size := by
  induction ms generalizing st with
  | nil =>
      simp only [ShortTermMemory.add_all, List.foldl_nil, List.append_nil]
      exact (rtake_of_length_le _ _ hlen).symm
  | cons m rest ih =>
      have hstep : (st.add_message m now).max_size = st.max_size := rfl
      have h2 : (st.add_message m now).messages.length ≤ st.max_size := by
        rw [add_message_messages st m now h]
        exact length_rtake_le _ _
      have := ih (st.add_message m now) (by rw [hstep]; exact h)
        (by rw [hstep]; exact h2)
      simp only [ShortTermMemory.add_all, List.foldl_cons] at this ⊢
      rw [this, hstep, add_message_messages st m now h, rtake_append_rtake]
      simp

/-- C5 (amended).  For every positive capacity, the short-term window's
length never exceeds `max_size` no matter what is appended through
`add_message`, and appending `N + 5` messages to an empty window of
capacity `N ≥ 1` leaves exactly the `N` most recently appended messages in
oldest-first order.  (The claim as stated, quantifying over every capacity,
fails at capacity `0` because the trim slice `messages[-0:]` is the whole
list; see the counterexample.) -/
theorem C5_window_bounded (st : ShortTermMemory) (ms : List BaseMessage)
    (now : ℚ) (N : Nat) (msgs : List BaseMessage) (t0 t1 : ℚ)
    (hmax : 1 ≤ st.max_size) (hlen : st.messages.length ≤ st.max_size)
    (hN : 1 ≤ N) (hcount : msgs.length = N + 5) :
    (st.add_all ms now).messages.length ≤ st.max_size ∧
    ((ShortTermMemory.mk0 t0 N).add_all msgs t1).messages = msgs.drop 5 := by
  constructor
  · rw [add_all_messages ms st now hmax hlen]
    exact length_rtake_le _ _
  · rw [add_all_messages msgs (ShortTermMemory.mk0 t0 N) t1 hN (by simp [ShortTermMemory.mk0])]
    show (([] : List BaseMessage) ++ msgs).rtake N = msgs.drop 5
    rw [List.nil_append, List.rtake, hcount, Nat.add_sub_cancel_left]

/-- Witness for C5: capacity 10 window with no appends stays bounded, and
appending 6 messages to an empty capacity-1 window keeps only the last. -/
theorem C5_window_bounded_witness :
    ((ShortTermMemory.mk0 0 10).add_all [] 0).messages.length ≤
      (ShortTermMemory.mk0 0 10).max_size ∧
    ((ShortTermMemory.mk0 0 1).add_all
        [BaseMessage.humanMessage "a", BaseMessage.humanMessage "b",
         BaseMessage.humanMessage "c", BaseMessage.humanMessage "d",
         BaseMessage.humanMessage "e", BaseMessage.humanMessage "f"] 0).messages =
      ([BaseMessage.humanMessage "a", BaseMessage.humanMessage "b",
        BaseMessage.humanMessage "c", BaseMessage.humanMessage "d",
        BaseMessage.humanMessage "e", BaseMessage.humanMessage "f"]).drop 5 :=
  C5_window_bounded (ShortTermMemory.mk0 0 10) [] 0 1
    [BaseMessage.humanMessage "a", BaseMessage.humanMessage "b",
     BaseMessage.humanMessage "c", BaseMessage.humanMessage "d",
     BaseMessage.humanMessage "e", BaseMessage.humanMessage "f"] 0 0
    (by decide) (by decide) (by decide) (by decide)

/-- Counterexample to C5 as stated: with capacity `max_size = 0` the window
exceeds its capacity after a single append, because the Python trim
`messages[-max_size:]` with `max_size = 0` slices the whole list. -/
theorem C5_capacity_zero_counterexample :
    ((ShortTermMemory.mk0 0 0).add_message (BaseMessage.humanMessage "hello")
        0).messages.length > (ShortTermMemory.mk0 0 0).max_size := by
  decide

/- ===== lemmas about dictionaries and the persistence round-trip ===== -/

/-- Looking up the key just set yields the new value. -/
theorem lookup_dictSet_self {α : Type} (l : List (String × α)) (k : String)
    (v : α) : (dictSet l k v).lookup k = some v := by
  induction l with
  | nil => simp [dictSet, List.lookup]
  | cons p rest ih =>
      by_cases h : p.1 = k
      · simp [dictSet, h, List.lookup]
      · have hb : (k == p.1) = false := beq_eq_false_iff_ne.mpr
          (fun hc => h hc.symm)
        simp only [dictSet, if_neg h, List.lookup, hb]
        exact ih

/-- Setting one key leaves lookups of other keys unchanged. -/
theorem lookup_dictSet_ne {α : Type} (l : List (String × α)) (k k0 : String)
    (v : α) (h : k0 ≠ k) : (dictSet l k v).lookup k0 = l.lookup k0 := by
  have hb0 : (k0 == k) = false := beq_eq_false_iff_ne.mpr h
  induction l with
  | nil => simp [dictSet, List.lookup, hb0]
  | cons p rest ih =>
      by_cases hp : p.1 = k
      · subst hp
        simp [dictSet, List.lookup, hb0]
      · simp only [dictSet, if_neg hp, List.lookup]
        cases hc : (k0 == p.1) with
        | true => rfl
        | false => exact ih

/-- Keys absent from the folded data keep their prior binding. -/
theorem lookup_foldl_dictSet_of_not_mem {α β : Type}
    (f : String → β → α) (data : List (String × β))
    (init : List (String × α)) (uid : String)
    (h : uid ∉ data.map Prod.fst) :
    (data.foldl (fun us p => dictSet us p.1 (f p.1 p.2)) init).lookup uid =
      init.lookup uid := by
  induction data generalizing init with
  | nil => rfl
  | cons p rest ih =>
      simp only [List.map_cons, List.mem_cons, not_or] at h
      simp only [List.foldl_cons]
      rw [ih _ h.2, lookup_dictSet_ne _ _ _ _ h.1]

/-- With no duplicate keys in the folded data, each folded key ends up
bound to the value built from its record. -/
theorem lookup_foldl_dictSet_of_mem {α β : Type}
    (f : String → β → α) (data : List (String × β))
    (init : List (String × α)) (uid : String) (d : β)
    (hnd : (data.map Prod.fst).Nodup) (hmem : (uid, d) ∈ data) :
    (data.foldl (fun us p => dictSet us p.1 (f p.1 p.2)) init).lookup uid =
      some (f uid d) := by
  induction data generalizing init with
  | nil => cases hmem
  | cons p rest ih =>
      simp only [List.map_cons, List.nodup_cons] at hnd
      rcases List.mem_cons.mp hmem with heq | htail
      · subst heq
        simp only [List.foldl_cons]
        rw [lookup_foldl_dictSet_of_not_mem f rest _ uid hnd.1,
          lookup_dictSet_self]
      · simp only [List.foldl_cons]
        exact ih _ hnd.2 htail

/-- A successful lookup exhibits a member of the association list. -/
theorem mem_of_lookup_some {α : Type} (l : List (String × α)) (k : String)
    (v : α) (h : l.lookup k = some v) : (k, v) ∈ l := by
  induction l with
  | nil => cases h
  | cons p rest ih =>
      rcases p with ⟨a, b⟩
      cases hc : (k == a) with
      | true =>
          have hk : k = a := beq_iff_eq.mp hc
          simp only [List.lookup, hc] at h
          subst hk
          have hbv : b = v := Option.some.inj h
          subst hbv
          exact List.mem_cons_self _ _
      | false =>
          simp only [List.lookup, hc] at h
          exact List.mem_cons.mpr (Or.inr (ih h))

/-- Decoding a persisted (type name, content) pair undoes the encoding. -/
theorem decodeMessage_typeName (m : BaseMessage) :
    decodeMessage (m.typeName, m.content) = some m := by
  cases m <;> rfl

/-- Replaying an encoded message list through the load loop is the same as
appending the original messages through `add_message`. -/
theorem replay_encoded_messages (ms : List BaseMessage)
    (st : ShortTermMemory) (now : ℚ) :
    (ms.map (fun m => (m.typeName, m.content))).foldl
        (fun st pair =>
          match decodeMessage pair with
          | some m => st.add_message m now
          | none => st)
        st = st.add_all ms now := by
  induction ms generalizing st with
  | nil => rfl
  | cons m rest ih =>
      simp only [List.map_cons, List.foldl_cons, decodeMessage_typeName,
        ShortTermMemory.add_all, List.foldl_cons]
      exact ih _

/-- Restoring a saved user record reproduces the message sequence, the
preference map and the fact list, provided the window held at most 10
messages (every window the manager itself constructs has capacity 10, so
this holds for all reachable states). -/
theorem restoreUser_saveUser (uid : String) (u : UserMemory) (now : ℚ)
    (hlen : u.short_term.messages.length ≤ 10) :
    (restoreUser uid (saveUser u) now).short_term.messages =
        u.short_term.messages ∧
    (restoreUser uid (saveUser u) now).long_term.preferences =
        u.long_term.preferences ∧
    (restoreUser uid (saveUser u) now).long_term.facts = u.long_term.facts := by
  refine ⟨?_, rfl, rfl⟩
  show ((saveUser u).st_messages.foldl
      (fun st pair =>
        match decodeMessage pair with
        | some m => st.add_message m now
        | none => st)
      (UserMemory.mk0 uid now).short_term).messages = u.short_term.messages
  have hshort : (UserMemory.mk0 uid now).short_term = ShortTermMemory.mk0 now :=
    rfl
  rw [saveUser, replay_encoded_messages, hshort,
    add_all_messages u.short_term.messages (ShortTermMemory.mk0 now) now
      (by norm_num [ShortTermMemory.mk0])
      (by norm_num [ShortTermMemory.mk0])]
  show (([] : List BaseMessage) ++ u.short_term.messages).rtake 10 =
    u.short_term.messages
  rw [List.nil_append]
  exact rtake_of_length_le _ _ hlen

/-- C6 (confirmed).  `save_to_disk` followed by `load_from_disk` on the
written representation reproduces, for every user of the saved manager, an
identical short-term message sequence (same role tag and content in the
same order), an identical preference map and an identical fact list.  The
hypotheses hold for every reachable manager: user ids are dictionary keys
(no duplicates) and every short-term window has capacity 10. -/
theorem C6_save_load_roundtrip (mgr mgr2 : MemoryManager) (now : ℚ)
    (hkeys : (mgr.users.map Prod.fst).Nodup)
    (hcap : ∀ p ∈ mgr.users, p.2.short_term.messages.length ≤ 10)
    (uid : String) (u : UserMemory) (hu : mgr.users.lookup uid = some u) :
    ∃ u2,
      (mgr2.load_from_disk (.ok mgr.save_to_disk) now).users.lookup uid =
          some u2 ∧
      u2.short_term.messages = u.short_term.messages ∧
      u2.long_term.preferences = u.long_term.preferences ∧
      u2.long_term.facts = u.long_term.facts := by
  have hmem : (uid, u) ∈ mgr.users := mem_of_lookup_some _ _ _ hu
  have hmem2 : (uid, saveUser u) ∈ mgr.save_to_disk :=
    List.mem_map.mpr ⟨(uid, u), hmem, rfl⟩
  have hkeys2 : (mgr.save_to_disk.map Prod.fst).Nodup := by
    have : mgr.save_to_disk.map Prod.fst = mgr.users.map Prod.fst := by
      simp [MemoryManager.save_to_disk, List.map_map]
    rw [this]; exact hkeys
  refine ⟨restoreUser uid (saveUser u) now, ?_, ?_⟩
  · show (mgr.save_to_disk.foldl
        (fun us p => dictSet us p.1 (restoreUser p.1 p.2 now))
        mgr2.users).lookup uid = _
    exact lookup_foldl_dictSet_of_mem (fun k d => restoreUser k d now)
      mgr.save_to_disk mgr2.users uid (saveUser u) hkeys2 hmem2
  · exact restoreUser_saveUser uid u now
      (hcap (uid, u) hmem)

/-- Sample populated user record used to witness the round-trip. -/
def sampleUser : UserMemory :=
  { user_id := "alice",
    short_term := ⟨10, [.humanMessage "hi there", .aiMessage "hello"], 1⟩,
    long_term := ⟨["likes window seats"], [("cuisine", "Thai")],
      ["hi there"], []⟩,
    session_data := [],
    last_activity := 1 }

/-- Sample manager holding the sample user. -/
def sampleManager : MemoryManager := ⟨[("alice", sampleUser)], 3600⟩

/-- Witness for C6: the concrete round-trip on the sample manager. -/
theorem C6_save_load_roundtrip_witness :
    ∃ u2,
      ((MemoryManager.mk0).load_from_disk
          (.ok sampleManager.save_to_disk) 2).users.lookup "alice" =
          some u2 ∧
      u2.short_term.messages = sampleUser.short_term.messages ∧
      u2.long_term.preferences = sampleUser.long_term.preferences ∧
      u2.long_term.facts = sampleUser.long_term.facts :=
  C6_save_load_roundtrip sampleManager MemoryManager.mk0 2
    (by decide) (by decide) "alice" sampleUser (by decide)

/-- C7 (confirmed).  On a fresh manager, processing a human message
containing the cuisine keyword `italian` and then one containing `thai`
leaves exactly one binding under the `cuisine` preference key, with value
`Thai`; re-processing the same message leaves the preference map unchanged
(last-write-wins and idempotent merge). -/
theorem C7_preference_merge (t1 t2 t3 : ℚ) :
    (match ((MemoryManager.mk0.process_message "u1"
          (.humanMessage "likes Italian") t1).process_message "u1"
          (.humanMessage "likes Thai") t2).users.lookup "u1" with
      | some u => u.long_term.preferences
      | none => []) = [("cuisine", "Thai")] ∧
    (match (((MemoryManager.mk0.process_message "u1"
          (.humanMessage "likes Italian") t1).process_message "u1"
          (.humanMessage "likes Thai") t2).process_message "u1"
          (.humanMessage "likes Thai") t3).users.lookup "u1" with
      | some u => u.long_term.preferences
      | none => []) = [("cuisine", "Thai")] :=
  ⟨rfl, rfl⟩

/-- C10 (confirmed).  If reading or JSON-parsing the memory file fails
(missing file or invalid JSON), `load_from_disk` catches the error and
returns with the manager — in particular its users map — exactly as it
was: no record is added, removed or partially restored. -/
theorem C10_load_error_atomic (mgr : MemoryManager) (e : FileError)
    (now : ℚ) : mgr.load_from_disk (.error e) now = mgr := rfl

/- ===================== utils/config.py and utils/auth.py ===================== -/

/-- Permission entry of the static `ROLES` table (utils/config.py).  The
textual `description` field carries no logic and is omitted. -/
structure RolePermissions : Type where
  kb_access : List String
  kg_access : List String
  agent_access : List String
  domain_access : List String
  user_management : Bool
  data_sources_access : List String
  memory_access : List String
deriving DecidableEq, Repr

/-- The empty dictionary `{}` that `ROLES.get(role, {})` yields for an
unknown role: every `.get(key, [])` on it is `[]` and its
`user_management` entry is absent (falsy). -/
def emptyRolePermissions : RolePermissions :=
  ⟨[], [], [], [], false, [], []⟩

/-- The static access-control table `ROLES` (utils/config.py). -/
def ROLES : List (String × RolePermissions) :=
  [("admin",
    { kb_access := ["read", "write", "delete"],
      kg_access := ["read", "write", "delete"],
      agent_access := ["all"],
      domain_access := ["all"],
      user_management := true,
      data_sources_access := ["all"],
      memory_access := ["read", "write", "delete"] }),
   ("analyst",
    { kb_access := ["read"],
      kg_access := ["read"],
      agent_access := ["market_analysis", "location_recommender",
        "regulatory_advisor", "domain_specialist"],
      domain_access := ["financial", "marketing", "cuisine"],
      user_management := false,
      data_sources_access := ["mongodb", "neo4j"],
      memory_access := ["read"] }),
   ("restaurant_owner",
    { kb_access := ["read"],
      kg_access := ["read"],
      agent_access := ["location_recommender", "regulatory_advisor",
        "domain_specialist"],
      domain_access := ["cuisine", "design", "staffing"],
      user_management := false,
      data_sources_access := ["mongodb"],
      memory_access := ["read"] }),
   ("operations",
    { kb_access := ["read"],
      kg_access := ["read"],
      agent_access := ["domain_specialist"],
      domain_access := ["staffing", "technology", "design"],
      user_management := false,
      data_sources_access := ["mongodb"],
      memory_access := ["read"] }),
   ("guest",
    { kb_access := ["read"],
      kg_access := ["read"],
      agent_access := ["basic_query"],
      domain_access := [],
      user_management := false,
      data_sources_access := ["limited"],
      memory_access := [] })]

/-- `ROLES.get(role, {})`. -/
def rolePermsOf (role : String) : RolePermissions :=
  dictGet ROLES role emptyRolePermissions

/-- The dynamic key lookup `role_permissions.get(resource_type + "_access",
[])` in `check_permission`: each role dictionary carries exactly the six
`*_access` list keys (besides `user_management` and `description`), so the
lookup yields the matching list, or `[]` for any other resource type. -/
def resourceAccessList (p : RolePermissions) (resource_type : String) :
    List String :=
  if resource_type = "kb" then p.kb_access
  else if resource_type = "kg" then p.kg_access
  else if resource_type = "agent" then p.agent_access
  else if resource_type = "domain" then p.domain_access
  else if resource_type = "data_sources" then p.data_sources_access
  else if resource_type = "memory" then p.memory_access
  else []

/-- `check_permission` (utils/auth.py): the `user_management` short-circuit
first, then the wildcard-or-member test on the resource's action list.
Users are represented by their role string, the only field read. -/
def check_permission (role : String) (resource_type action : String) : Bool :=
  let role_permissions := rolePermsOf role
  if resource_type = "user_management" && role_permissions.user_management then
    true
  else
    let allowed_actions := resourceAccessList role_permissions resource_type
    allowed_actions.contains "all" || allowed_actions.contains action

/-- `has_agent_access` (utils/auth.py). -/
def has_agent_access (role agent_name : String) : Bool :=
  let allowed_agents := (rolePermsOf role).agent_access
  allowed_agents.contains "all" || allowed_agents.contains agent_name

/-- The action-list lookup on the empty permission dictionary is empty for
every resource type. -/
theorem resourceAccessList_empty (rt : String) :
    resourceAccessList emptyRolePermissions rt = [] := by
  simp [resourceAccessList, emptyRolePermissions]

/-- C9 (amended).  Access control defaults to deny: an unknown role is
denied every agent and every resource/action; any role whose allowed-agent
list is empty is denied every agent; and any role whose allowed-action
list for a resource type is empty is denied every action on it — except
through the `user_management` short-circuit, which grants access despite
the (always empty) `user_management_access` action list whenever the
role's `user_management` flag is set.  (That exception falsifies the claim
as stated; see the counterexample.) -/
theorem C9_default_deny :
    (∀ role, ROLES.lookup role = none →
      (∀ agent, has_agent_access role agent = false) ∧
      (∀ rt act, check_permission role rt act = false)) ∧
    (∀ role agent, (rolePermsOf role).agent_access = [] →
      has_agent_access role agent = false) ∧
    (∀ role rt act, resourceAccessList (rolePermsOf role) rt = [] →
      (rt = "user_management" → (rolePermsOf role).user_management = false) →
      check_permission role rt act = false) := by
  have hagent : ∀ role agent, (rolePermsOf role).agent_access = [] →
      has_agent_access role agent = false := by
    intro role agent h
    simp [has_agent_access, h]
  have hcheck : ∀ role rt act, resourceAccessList (rolePermsOf role) rt = [] →
      (rt = "user_management" → (rolePermsOf role).user_management = false) →
      check_permission role rt act = false := by
    intro role rt act h hum
    unfold check_permission
    by_cases hrt : rt = "user_management"
    · subst hrt
      simp [hum rfl, h]
    · simp [hrt, h]
  refine ⟨?_, hagent, hcheck⟩
  intro role hrole
  have hperm : rolePermsOf role = emptyRolePermissions := by
    simp [rolePermsOf, dictGet, hrole]
  refine ⟨fun agent => hagent role agent (by rw [hperm]; rfl),
    fun rt act => hcheck role rt act ?_ ?_⟩
  · rw [hperm]; exact resourceAccessList_empty rt
  · intro _; rw [hperm]; rfl

/-- Witness for C9: the unknown role `stranger` is denied an agent and a
store read, and the `guest` role with its empty `memory_access` list is
denied memory reads. -/
theorem C9_default_deny_witness :
    has_agent_access "stranger" "market_analysis" = false ∧
    check_permission "stranger" "kb" "read" = false ∧
    check_permission "guest" "memory" "read" = false :=
  ⟨(C9_default_deny.1 "stranger" (by decide)).1 "market_analysis",
   (C9_default_deny.1 "stranger" (by decide)).2 "kb" "read",
   C9_default_deny.2.2 "guest" "memory" "read" (by decide) (by decide)⟩

/-- Counterexample to C9 as stated: for the admin role and the resource
type `user_management` the looked-up allowed-action list is empty, yet
`check_permission` returns `True` through the `user_management`
short-circuit, so an empty allowed-action list does not imply denial. -/
theorem C9_user_management_counterexample :
    resourceAccessList (rolePermsOf "admin") "user_management" = [] ∧
    check_permission "admin" "user_management" "read" = true := by
  decide

/- ========== permission gate of agents/enhanced_orchestrator.py ========== -/

/-- The `access_control` entry of the orchestration graph's state. -/
structure AccessControlState : Type where
  checked_permissions : List (String × Bool)
  access_denied : Bool
deriving DecidableEq, Repr

/-- The slice of `EnhancedAgentState` that `check_permissions_and_route`
reads and writes: the routed agent and the access-control record.  The
user dictionary is represented by its role string. -/
structure OrchState : Type where
  next_agent : String
  access_control : AccessControlState
deriving DecidableEq, Repr

/-- `check_permissions_and_route` (enhanced_orchestrator.py): record the
permission-check outcome; on access granted return the agent label, on
denial flag `access_denied`, overwrite `next_agent` with `basic_query` and
return that label.  The returned string selects the next graph node. -/
def check_permissions_and_route (role : String) (st : OrchState) :
    OrchState × String :=
  let next_agent := st.next_agent
  let has_access := has_agent_access role next_agent
  let checked :=
    dictSet st.access_control.checked_permissions next_agent has_access
  let st :=
    { st with access_control :=
        { st.access_control with checked_permissions := checked } }
  if has_access then (st, next_agent)
  else
    let ac := { st.access_control with access_denied := true }
    ({ st with next_agent := "basic_query", access_control := ac },
     "basic_query")

/-- The access-limitation notice of the denied-access response template in
`run_basic_query`. -/
def accessNotice : String :=
  "you don\x27t have access to that functionality with your current permissions"

/-- Response construction of `run_basic_query` (enhanced_orchestrator.py):
when an access denial was recorded, the basic agent's answer is wrapped in
the limited-access template; otherwise it is returned as is.  The basic
agent's own output is an external model call, passed in as `basicAnswer`. -/
def run_basic_query (st : OrchState) (basicAnswer : String) : String :=
  if st.access_control.access_denied then
    "I\x27m sorry, but you don\x27t have access to that functionality with your current permissions.\n                \nYour query has been processed with limited access. Here\x27s what I can tell you:\n\n"
      ++ basicAnswer
      ++ "\n\nFor more detailed information, please contact your administrator to upgrade your access level."
  else basicAnswer

/-- C2 (confirmed).  For every role whose allowed-agent list contains
neither the wildcard `all` nor the routed agent, the gate denies access
(`has_agent_access` is false), records the denial, overwrites the routed
agent with `basic_query`, routes the graph to `basic_query`, and the text
the basic handler then returns contains the access-limitation notice. -/
theorem C2_denied_redirect (role : String) (st : OrchState)
    (hall : (rolePermsOf role).agent_access.contains "all" = false)
    (hagent : (rolePermsOf role).agent_access.contains st.next_agent = false) :
    has_agent_access role st.next_agent = false ∧
    (check_permissions_and_route role st).1.next_agent = "basic_query" ∧
    (check_permissions_and_route role st).1.access_control.access_denied =
      true ∧
    (check_permissions_and_route role st).1.access_control.checked_permissions
      = dictSet st.access_control.checked_permissions st.next_agent false ∧
    (check_permissions_and_route role st).2 = "basic_query" ∧
    ∀ ans,
      substrIn accessNotice
        (run_basic_query (check_permissions_and_route role st).1 ans) = true := by
  have hdeny : has_agent_access role st.next_agent = false := by
    show ((rolePermsOf role).agent_access.contains "all"
      || (rolePermsOf role).agent_access.contains st.next_agent) = false
    rw [hall, hagent]
    rfl
  have hroute : check_permissions_and_route role st =
      ({ next_agent := "basic_query",
         access_control :=
           { checked_permissions :=
               dictSet st.access_control.checked_permissions st.next_agent false,
             access_denied := true } },
       "basic_query") := by
    simp [check_permissions_and_route, hdeny]
  refine ⟨hdeny, ?_, ?_, ?_, ?_, ?_⟩
  · rw [hroute]
  · rw [hroute]
  · rw [hroute]
  · rw [hroute]
  · intro ans
    rw [hroute]
    show substrIn accessNotice
      (run_basic_query
        { next_agent := "basic_query",
          access_control :=
            { checked_permissions :=
                dictSet st.access_control.checked_permissions st.next_agent false,
              access_denied := true } } ans) = true
    rfl

/-- Witness for C2: the guest role routed to `market_analysis` is denied
and redirected, with the notice in the final text. -/
theorem C2_denied_redirect_witness :
    has_agent_access "guest" "market_analysis" = false ∧
    (check_permissions_and_route "guest" ⟨"market_analysis", ⟨[], false⟩⟩).1.next_agent = "basic_query" ∧
    (check_permissions_and_route "guest" ⟨"market_analysis", ⟨[], false⟩⟩).1.access_control.access_denied = true ∧
    (check_permissions_and_route "guest" ⟨"market_analysis", ⟨[], false⟩⟩).1.access_control.checked_permissions
      = dictSet [] "market_analysis" false ∧
    (check_permissions_and_route "guest" ⟨"market_analysis", ⟨[], false⟩⟩).2 = "basic_query" ∧
    ∀ ans,
      substrIn accessNotice
        (run_basic_query
          (check_permissions_and_route "guest" ⟨"market_analysis", ⟨[], false⟩⟩).1 ans) = true :=
  C2_denied_redirect "guest" ⟨"market_analysis", ⟨[], false⟩⟩
    (by decide) (by decide)

/- ============ RoutingAgent (agents/agent_definitions.py) ============ -/

/-- Routing decision dictionary returned by `RoutingAgent.run`. -/
structure RoutingDecision : Type where
  agent : String
  parameters : List (String × String)
  reasoning : String
deriving DecidableEq, Repr

/-- Outcome of the classifier call plus the JSON-extraction step of
`RoutingAgent.run`: either some exception was raised along the way (model
call, JSON location, parsing), carried as its message, or a parsed payload
whose three expected fields may each be missing. -/
structure ParsedPayload : Type where
  agent : Option String
  parameters : Option (List (String × String))
  reasoning : Option String
deriving DecidableEq, Repr

/-- City gazetteer scanned by `RoutingAgent.run` when the classifier did
not extract a city parameter. -/
def router_cities : List String :=
  ["mumbai", "delhi", "bangalore", "hyderabad", "kolkata", "chennai",
   "pune", "ahmedabad", "jaipur", "lucknow"]

/-- `RoutingAgent.run` (agent_definitions.py).  On a parsed payload the
three required fields are defaulted when missing and a city is injected
from the gazetteer (first match in the lowercased query, title-cased).
Any exception along the classifier/parse path lands in the outer `except`
clause, which returns the `basic_query` fallback with an empty parameter
map and an error rationale.  (The keyword-rule cascade that follows that
`return` statement in the source is unreachable; it is embedded separately
as `fallbackCascade`.) -/
def RoutingAgent.run (query : String)
    (classifier : Except String ParsedPayload) : RoutingDecision :=
  match classifier with
  | .error e =>
      { agent := "basic_query", parameters := [],
        reasoning := "Fallback due to error: " ++ e }
  | .ok result =>
      let agent := result.agent.getD "basic_query"
      let parameters := result.parameters.getD []
      let reasoning := result.reasoning.getD "Query processed by routing agent"
      let parameters :=
        if (parameters.lookup "city").isNone then
          let query_lower := pyLower query
          match router_cities.find? (fun city => substrIn city query_lower) with
          | some city => dictSet parameters "city" city.capitalize
          | none => parameters
        else parameters
      { agent := agent, parameters := parameters, reasoning := reasoning }

/-- The deterministic keyword-rule cascade of `RoutingAgent.run`
(agent_definitions.py, the block following the fallback `return` inside
the `except` clause).  This code is unreachable in the source — the
unconditional `return` of the `basic_query` fallback precedes it — but it
is the cascade the specification describes, so it is embedded verbatim to
state how the reachable code diverges from it. -/
def fallbackCascade (query : String) : RoutingDecision :=
  let query_lower := pyLower query
  let city :=
    match (["mumbai", "delhi", "bangalore", "hyderabad", "kolkata",
        "chennai", "pune", "ahmedabad"]).find?
        (fun c => substrIn c query_lower) with
    | some c => c.capitalize
    | none => "Chennai"
  if (["where", "location", "area", "place"]).any
      (fun w => substrIn w query_lower) then
    { agent := "location_recommender", parameters := [("city", city)],
      reasoning := "Query appears to be about location recommendations" }
  else if (["license", "permit", "regulation", "legal", "compliance"]).any
      (fun w => substrIn w query_lower) then
    { agent := "regulatory_advisor",
      parameters := [("city", city), ("restaurant_type", "casual dining")],
      reasoning := "Query appears to be about regulatory requirements" }
  else if (["market", "competition", "trend", "customer", "demographics",
      "profitable"]).any (fun w => substrIn w query_lower) then
    { agent := "market_analysis",
      parameters := [("city", city), ("cuisine", "Multi-cuisine")],
      reasoning := "Query appears to be about market analysis" }
  else if (["consumer", "preference", "survey", "dining habit",
      "behavior"]).any (fun w => substrIn w query_lower) then
    { agent := "consumer_survey",
      parameters := [("city", city), ("demographic", "all")],
      reasoning := "Query about consumer preferences and behavior" }
  else if (["rent", "real estate", "property", "commercial space",
      "lease"]).any (fun w => substrIn w query_lower) then
    { agent := "real_estate",
      parameters := [("city", city), ("locality", "downtown")],
      reasoning := "Query about real estate and property costs" }
  else if (["population", "demographics", "income", "economic", "gdp"]).any
      (fun w => substrIn w query_lower) then
    { agent := "demographics", parameters := [("city", city)],
      reasoning := "Query about demographic and economic data" }
  else
    { agent := "basic_query", parameters := [("query", query)],
      reasoning := "Fallback routing due to parsing error" }

/-- C1 (code bug).  The query `license for my restaurant` contains the
trigger keyword `license`, which belongs to the regulatory intent alone,
yet whenever the classifier fails, `RoutingAgent.run` returns the generic
`basic_query` fallback for it: the keyword cascade that would return
`regulatory_advisor` — embedded as `fallbackCascade` — sits after the
unconditional fallback `return` in the `except` clause and never runs. -/
theorem C1_keyword_cascade_dead :
    (∀ e : String,
      RoutingAgent.run "license for my restaurant" (.error e) =
        { agent := "basic_query", parameters := [],
          reasoning := "Fallback due to error: " ++ e }) ∧
    (fallbackCascade "license for my restaurant").agent =
      "regulatory_advisor" :=
  ⟨fun _ => rfl, by decide⟩

/-- C8 (confirmed).  `RoutingAgent.run` is total: on any classifier or
parse failure it returns the `basic_query` fallback with an empty
parameter map and a rationale naming the failure, and on a parsed payload
the `agent` and `reasoning` keys are filled with their defaults when the
payload lacks them, so every returned decision carries all three keys. -/
theorem C8_router_never_raises (query : String) :
    (∀ e, RoutingAgent.run query (.error e) =
      { agent := "basic_query", parameters := [],
        reasoning := "Fallback due to error: " ++ e }) ∧
    (∀ result, (RoutingAgent.run query (.ok result)).agent =
        result.agent.getD "basic_query" ∧
      (RoutingAgent.run query (.ok result)).reasoning =
        result.reasoning.getD "Query processed by routing agent") :=
  ⟨fun _ => rfl, fun _ => ⟨rfl, rfl⟩⟩

/- ============ hybrid search fusion (kb/mongodb_kb.py) ============ -/

/-- A langchain document: text content plus a metadata dictionary.  The
metadata values the fusion code reads are strings (source identifiers); a
missing key falls back to a default via `.get`. -/
structure Document : Type where
  page_content : String
  metadata : List (String × String)
deriving DecidableEq, Repr

/-- The composite deduplication key of `hybrid_search`:
`doc.metadata.get("source", "") + doc.page_content[:100]`. -/
def docKey (d : Document) : String :=
  dictGet d.metadata "source" "" ++ pyTakeStr d.page_content 100

/-- One value of the `scored_results` dictionary in `hybrid_search`. -/
structure ScoredEntry : Type where
  doc : Document
  keyword_score : ℚ
  semantic_score : ℚ
  combined_score : ℚ
deriving DecidableEq, Repr

/-- The keyword loop of `hybrid_search`: rank `i` of `n` scores
`1.0 - i/n`, written into the insertion-ordered dictionary (a repeated key
overwrites the earlier entry in place, as a CPython dict does). -/
def processKeywordResults (keyword_results : List Document) :
    List (String × ScoredEntry) :=
  keyword_results.enum.foldl
    (fun scored p =>
      let keyword_score : ℚ :=
        1 - (p.1 : ℚ) / (keyword_results.length : ℚ)
      dictSet scored (docKey p.2) ⟨p.2, keyword_score, 0, 0⟩)
    []

/-- The per-document update of the semantic loop: a key already present
gets its `semantic_score` field set; a fresh key is appended with keyword
score `0`. -/
def applySemantic (scored : List (String × ScoredEntry)) (k : String)
    (d : Document) (s : ℚ) : List (String × ScoredEntry) :=
  match scored with
  | [] => [(k, ⟨d, 0, s, 0⟩)]
  | (k0, e) :: rest =>
      if k0 = k then (k0, { e with semantic_score := s }) :: rest
      else (k0, e) :: applySemantic rest k d s

/-- The semantic loop of `hybrid_search`. -/
def processSemanticResults (scored : List (String × ScoredEntry))
    (semantic_results : List Document) : List (String × ScoredEntry) :=
  semantic_results.enum.foldl
    (fun acc p =>
      let semantic_score : ℚ :=
        1 - (p.1 : ℚ) / (semantic_results.length : ℚ)
      applySemantic acc (docKey p.2) p.2 semantic_score)
    scored

/-- The combined-score pass of `hybrid_search`:
`keyword_score*(1-α) + semantic_score*α` stored on every entry in place. -/
def withCombined (reranking_factor : ℚ)
    (scored : List (String × ScoredEntry)) : List (String × ScoredEntry) :=
  scored.map (fun p =>
    (p.1,
     { p.2 with combined_score :=
        p.2.keyword_score * (1 - reranking_factor) +
          p.2.semantic_score * reranking_factor }))

/-- Descending order on combined scores; sorting with it via a stable sort
is Python's `sorted(..., key=combined_score, reverse=True)`. -/
def hybridLE (a b : ScoredEntry) : Prop :=
  b.combined_score ≤ a.combined_score

instance : DecidableRel hybridLE :=
  fun a b => inferInstanceAs (Decidable (b.combined_score ≤ a.combined_score))

/-- `MongoKnowledgeBase.hybrid_search` (kb/mongodb_kb.py), expressed over
the two ranked lists the keyword and semantic sub-searches returned (both
sub-calls and the surrounding degradation `try`/`except` are the external
boundary): score both lists positionally, merge by composite key, combine
with the fusion weight, sort descending by combined score (stably, as
CPython's `sorted` does — `List.insertionSort` with `hybridLE` inserts
each earlier element before later equals, which is the same order), and
truncate to `k`. -/
def MongoKnowledgeBase.hybrid_search (keyword_results semantic_results :
    List Document) (k : Nat := 5) (reranking_factor : ℚ := 1/2) :
    List Document :=
  let scored := processKeywordResults keyword_results
  let scored := processSemanticResults scored semantic_results
  let scored := withCombined reranking_factor scored
  let ranked := List.insertionSort hybridLE (scored.map Prod.snd)
  (ranked.take k).map (fun e => e.doc)

/-- Sample document appearing only in the keyword ranking. -/
def docA : Document := ⟨"alpha document content", [("source", "a.txt")]⟩

/-- Sample document appearing only in the semantic ranking. -/
def docB : Document := ⟨"beta document content", [("source", "b.txt")]⟩

/-- Counterexample to C4 as stated: with fusion weight 0, one keyword
result and one (distinct) semantic result, the semantic-only document
still fills the ranking below the keyword results — the output is not the
keyword-only ranking `[docA]` truncated to `k = 5`. -/
theorem C4_fusion_boundary_counterexample :
    MongoKnowledgeBase.hybrid_search [docA] [docB] 5 0 = [docA, docB] ∧
    MongoKnowledgeBase.hybrid_search [docA] [docB] 5 0 ≠ [docA] := by
  norm_num [MongoKnowledgeBase.hybrid_search, processKeywordResults,
    processSemanticResults, applySemantic, withCombined, dictSet, docKey,
    dictGet, pyTakeStr, List.insertionSort, List.orderedInsert, hybridLE,
    docA, docB, List.enum, List.enumFrom]

/- ===== lemmas about the fusion algorithm ===== -/

/-- A fresh key is appended at the tail by `dictSet`. -/
theorem dictSet_append_of_not_mem {α : Type} (l : List (String × α))
    (k : String) (v : α) (h : k ∉ l.map Prod.fst) :
    dictSet l k v = l ++ [(k, v)] := by
  induction l with
  | nil => rfl
  | cons p rest ih =>
      obtain ⟨k0, v0⟩ := p
      simp only [List.map_cons, List.mem_cons, not_or] at h
      simp only [dictSet, if_neg (fun hc : k0 = k => h.1 hc.symm)]
      rw [ih h.2]
      rfl

/-- A fresh key is appended at the tail by `applySemantic`. -/
theorem applySemantic_append_of_not_mem (l : List (String × ScoredEntry))
    (k : String) (d : Document) (s : ℚ) (h : k ∉ l.map Prod.fst) :
    applySemantic l k d s = l ++ [(k, ⟨d, 0, s, 0⟩)] := by
  induction l with
  | nil => rfl
  | cons p rest ih =>
      obtain ⟨k0, e⟩ := p
      simp only [List.map_cons, List.mem_cons, not_or] at h
      simp only [applySemantic, if_neg (fun hc : k0 = k => h.1 hc.symm)]
      rw [ih h.2]
      rfl

/-- The keyword loop over index/document pairs with pairwise fresh keys is
a plain append of scored entries. -/
theorem foldl_dictSet_scored (n : ℚ) (ps : List (Nat × Document))
    (acc : List (String × ScoredEntry))
    (hnd : (ps.map (fun p => docKey p.2)).Nodup)
    (hdisj : ∀ p ∈ ps, docKey p.2 ∉ acc.map Prod.fst) :
    ps.foldl (fun scored p =>
        dictSet scored (docKey p.2)
          ⟨p.2, 1 - (p.1 : ℚ) / n, 0, 0⟩) acc =
      acc ++ ps.map (fun p =>
        (docKey p.2, (⟨p.2, 1 - (p.1 : ℚ) / n, 0, 0⟩ : ScoredEntry))) := by
  induction ps generalizing acc with
  | nil => simp
  | cons q qs ih =>
      simp only [List.map_cons, List.nodup_cons] at hnd
      simp only [List.foldl_cons]
      rw [dictSet_append_of_not_mem _ _ _ (hdisj q (List.mem_cons_self _ _))]
      have hdisj2 : ∀ p ∈ qs, docKey p.2 ∉
          (acc ++ [(docKey q.2,
            (⟨q.2, 1 - (q.1 : ℚ) / n, 0, 0⟩ : ScoredEntry))]).map Prod.fst := by
        intro p hp
        rw [List.map_append]
        intro hmem
        rcases List.mem_append.mp hmem with h1 | h1
        · exact hdisj p (List.mem_cons_of_mem _ hp) h1
        · simp only [List.map_cons, List.map_nil, List.mem_singleton] at h1
          exact hnd.1 (h1 ▸ List.mem_map.mpr ⟨p, hp, rfl⟩)
      rw [ih _ hnd.2 hdisj2]
      simp

/-- The semantic loop over index/document pairs with pairwise fresh keys
is a plain append of semantically scored entries. -/
theorem foldl_applySemantic_scored (m : ℚ) (ps : List (Nat × Document))
    (acc : List (String × ScoredEntry))
    (hnd : (ps.map (fun p => docKey p.2)).Nodup)
    (hdisj : ∀ p ∈ ps, docKey p.2 ∉ acc.map Prod.fst) :
    ps.foldl (fun a p =>
        applySemantic a (docKey p.2) p.2 (1 - (p.1 : ℚ) / m)) acc =
      acc ++ ps.map (fun p =>
        (docKey p.2, (⟨p.2, 0, 1 - (p.1 : ℚ) / m, 0⟩ : ScoredEntry))) := by
  induction ps generalizing acc with
  | nil => simp
  | cons q qs ih =>
      simp only [List.map_cons, List.nodup_cons] at hnd
      simp only [List.foldl_cons]
      rw [applySemantic_append_of_not_mem _ _ _ _
        (hdisj q (List.mem_cons_self _ _))]
      have hdisj2 : ∀ p ∈ qs, docKey p.2 ∉
          (acc ++ [(docKey q.2,
            (⟨q.2, 0, 1 - (q.1 : ℚ) / m, 0⟩ : ScoredEntry))]).map Prod.fst := by
        intro p hp
        rw [List.map_append]
        intro hmem
        rcases List.mem_append.mp hmem with h1 | h1
        · exact hdisj p (List.mem_cons_of_mem _ hp) h1
        · simp only [List.map_cons, List.map_nil, List.mem_singleton] at h1
          exact hnd.1 (h1 ▸ List.mem_map.mpr ⟨p, hp, rfl⟩)
      rw [ih _ hnd.2 hdisj2]
      simp

/-- Keys of the enumerated documents are the keys of the documents. -/
theorem enum_map_docKey (l : List Document) :
    l.enum.map (fun p => docKey p.2) = l.map docKey := by
  rw [show (fun p : Nat × Document => docKey p.2) = (docKey ∘ Prod.snd)
    from rfl, ← List.map_map, List.enum_map_snd]

/-- With pairwise distinct keys the keyword pass is an enumeration map. -/
theorem processKeywordResults_eq (kw : List Document)
    (h : (kw.map docKey).Nodup) :
    processKeywordResults kw =
      kw.enum.map (fun p =>
        (docKey p.2,
         (⟨p.2, 1 - (p.1 : ℚ) / (kw.length : ℚ), 0, 0⟩ : ScoredEntry))) := by
  have := foldl_dictSet_scored (kw.length : ℚ) kw.enum []
    (by rw [enum_map_docKey]; exact h) (by intro p _; simp)
  simpa using this

/-- With pairwise distinct keys, disjoint from the accumulated ones, the
semantic pass appends an enumeration map. -/
theorem processSemanticResults_eq (scored : List (String × ScoredEntry))
    (sem : List Document) (hnd : (sem.map docKey).Nodup)
    (hdisj : ∀ d ∈ sem, docKey d ∉ scored.map Prod.fst) :
    processSemanticResults scored sem =
      scored ++ sem.enum.map (fun p =>
        (docKey p.2,
         (⟨p.2, 0, 1 - (p.1 : ℚ) / (sem.length : ℚ), 0⟩ : ScoredEntry))) := by
  have := foldl_applySemantic_scored (sem.length : ℚ) sem.enum scored
    (by rw [enum_map_docKey]; exact hnd)
    (by
      intro p hp
      have hmem : p.2 ∈ sem := by
        have := List.mem_map_of_mem Prod.snd hp
        rwa [List.enum_map_snd] at this
      exact hdisj p.2 hmem)
  exact this

/-- Entries built over an enumeration with an antitone index score are
sorted for the descending fusion order. -/
theorem sorted_hybridLE_map_enumFrom (c : Nat → ℚ)
    (hc : ∀ i j : Nat, i ≤ j → c j ≤ c i)
    (mk : Nat × Document → ScoredEntry)
    (hcomb : ∀ p, (mk p).combined_score = c p.1)
    (l : List Document) (j : Nat) :
    List.Sorted hybridLE ((l.enumFrom j).map mk) := by
  induction l generalizing j with
  | nil => simp
  | cons d t ih =>
      show List.Sorted hybridLE
        (((j, d) :: t.enumFrom (j + 1)).map mk)
      simp only [List.map_cons]
      refine List.sorted_cons.mpr ⟨?_, ih (j + 1)⟩
      intro b hb
      rcases List.mem_map.mp hb with ⟨p, hp, rfl⟩
      show (mk p).combined_score ≤ (mk (j, d)).combined_score
      rw [hcomb, hcomb]
      exact hc j p.1 (le_trans (by omega) (List.le_fst_of_mem_enumFrom hp))

/-- Inserting a zero-score entry below sorted positive-score entries and
above other zero-score entries lands exactly between them. -/
theorem orderedInsert_zero_append (x : ScoredEntry)
    (pos zs : List ScoredEntry) (hx : x.combined_score = 0)
    (hp : ∀ b ∈ pos, 0 < b.combined_score)
    (hz : ∀ a ∈ zs, a.combined_score = 0) :
    List.orderedInsert hybridLE x (pos ++ zs) = pos ++ x :: zs := by
  induction pos with
  | nil =>
      cases zs with
      | nil => rfl
      | cons z t =>
          show List.orderedInsert hybridLE x (z :: t) = x :: z :: t
          rw [show List.orderedInsert hybridLE x (z :: t) =
            if hybridLE x z then x :: z :: t
            else z :: List.orderedInsert hybridLE x t from rfl]
          rw [if_pos]
          show z.combined_score ≤ x.combined_score
          rw [hx, hz z (List.mem_cons_self _ _)]
  | cons b t ih =>
      show List.orderedInsert hybridLE x (b :: (t ++ zs)) =
        b :: (t ++ x :: zs)
      rw [show List.orderedInsert hybridLE x (b :: (t ++ zs)) =
        if hybridLE x b then x :: b :: (t ++ zs)
        else b :: List.orderedInsert hybridLE x (t ++ zs) from rfl]
      rw [if_neg, ih (fun e he => hp e (List.mem_cons_of_mem _ he))]
      show ¬ (b.combined_score ≤ x.combined_score)
      rw [hx]
      exact not_le.mpr (hp b (List.mem_cons_self _ _))

/-- Stable-sorting zero-score entries followed by sorted positive-score
entries moves the whole positive block in front, preserving both internal
orders — exactly what the fusion sort does at the boundary weights. -/
theorem insertionSort_zeros_append (zs pos : List ScoredEntry)
    (hz : ∀ a ∈ zs, a.combined_score = 0)
    (hp : ∀ b ∈ pos, 0 < b.combined_score)
    (hs : List.Sorted hybridLE pos) :
    List.insertionSort hybridLE (zs ++ pos) = pos ++ zs := by
  induction zs with
  | nil => simpa using hs.insertionSort_eq
  | cons x t ih =>
      show List.orderedInsert hybridLE x
        (List.insertionSort hybridLE (t ++ pos)) = pos ++ x :: t
      rw [ih (fun a ha => hz a (List.mem_cons_of_mem _ ha))]
      exact orderedInsert_zero_append x pos t
        (hz x (List.mem_cons_self _ _)) hp
        (fun a ha => hz a (List.mem_cons_of_mem _ ha))

/-- The positional score `1 - i/n` is antitone in the rank. -/
theorem one_sub_div_antitone (n : ℚ) (hn : 0 ≤ n) (i j : Nat) (hij : i ≤ j) :
    1 - (j : ℚ) / n ≤ 1 - (i : ℚ) / n := by
  rcases hn.eq_or_lt with h0 | hpos
  · rw [← h0]
    simp
  · have : (i : ℚ) / n ≤ (j : ℚ) / n :=
      (div_le_div_iff_of_pos_right hpos).mpr (by exact_mod_cast hij)
    linarith

/-- The positional score of a rank below the list length is positive. -/
theorem one_sub_div_pos (n : ℚ) (i : Nat) (hi : (i : ℚ) < n) :
    0 < 1 - (i : ℚ) / n := by
  have hpos : 0 < n := lt_of_le_of_lt (by positivity) hi
  have : (i : ℚ) / n < 1 := (div_lt_one hpos).mpr hi
  linarith

/-- C4 (amended).  When every composite document key is distinct across
the two sub-search result lists and the favoured list holds at least `k`
documents, the fusion boundary holds: with `reranking_factor = 0` the
output is exactly the first `k` keyword results in their original order,
and with `reranking_factor = 1` exactly the first `k` semantic results.
(Without the length proviso the claim fails: documents appearing only in
the other list score zero but still fill the ranking below the favoured
list — see the counterexample.) -/
theorem C4_fusion_boundary (kw sem : List Document) (k : Nat)
    (hkeys : ((kw ++ sem).map docKey).Nodup) :
    (k ≤ kw.length →
      MongoKnowledgeBase.hybrid_search kw sem k 0 = kw.take k) ∧
    (k ≤ sem.length →
      MongoKnowledgeBase.hybrid_search kw sem k 1 = sem.take k) := by
  rw [List.map_append] at hkeys
  have hkw : (kw.map docKey).Nodup := (List.nodup_append.mp hkeys).1
  have hsem : (sem.map docKey).Nodup := (List.nodup_append.mp hkeys).2.1
  have hdisj : ∀ d ∈ sem, docKey d ∉ kw.map docKey := by
    intro d hd hmem
    exact (List.nodup_append.mp hkeys).2.2 hmem (List.mem_map_of_mem docKey hd)
  have hkeysPairs : (processKeywordResults kw).map Prod.fst = kw.map docKey := by
    rw [processKeywordResults_eq kw hkw, List.map_map]
    exact enum_map_docKey kw
  have hdisj2 : ∀ d ∈ sem,
      docKey d ∉ (processKeywordResults kw).map Prod.fst := by
    intro d hd
    rw [hkeysPairs]
    exact hdisj d hd
  have hn0 : (0 : ℚ) ≤ (kw.length : ℚ) := by positivity
  have hm0 : (0 : ℚ) ≤ (sem.length : ℚ) := by positivity
  constructor
  · -- reranking_factor = 0: keyword-only ranking
    intro hk
    show ((List.insertionSort hybridLE
        ((withCombined 0 (processSemanticResults
          (processKeywordResults kw) sem)).map Prod.snd)).take k).map
        (fun e => e.doc) = kw.take k
    have hval : (withCombined 0 (processSemanticResults
        (processKeywordResults kw) sem)).map Prod.snd =
      kw.enum.map (fun p =>
        (⟨p.2, 1 - (p.1 : ℚ) / (kw.length : ℚ), 0,
          (1 - (p.1 : ℚ) / (kw.length : ℚ)) * (1 - 0) + 0 * 0⟩ :
          ScoredEntry)) ++
      sem.enum.map (fun p =>
        (⟨p.2, 0, 1 - (p.1 : ℚ) / (sem.length : ℚ),
          0 * (1 - 0) + (1 - (p.1 : ℚ) / (sem.length : ℚ)) * 0⟩ :
          ScoredEntry)) := by
      rw [processSemanticResults_eq _ sem hsem hdisj2,
        processKeywordResults_eq kw hkw, withCombined,
        List.map_append, List.map_map, List.map_map, List.map_append,
        List.map_map, List.map_map]
      rfl
    rw [hval]
    have hsorted : List.Sorted hybridLE
        (kw.enum.map (fun p =>
          (⟨p.2, 1 - (p.1 : ℚ) / (kw.length : ℚ), 0,
            (1 - (p.1 : ℚ) / (kw.length : ℚ)) * (1 - 0) + 0 * 0⟩ :
            ScoredEntry)) ++
        sem.enum.map (fun p =>
          (⟨p.2, 0, 1 - (p.1 : ℚ) / (sem.length : ℚ),
            0 * (1 - 0) + (1 - (p.1 : ℚ) / (sem.length : ℚ)) * 0⟩ :
            ScoredEntry))) := by
      refine List.pairwise_append.mpr ⟨?_, ?_, ?_⟩
      · exact sorted_hybridLE_map_enumFrom
          (fun i => (1 - (i : ℚ) / (kw.length : ℚ)) * (1 - 0) + 0 * 0)
          (fun i j hij => by
            have := one_sub_div_antitone (kw.length : ℚ) hn0 i j hij
            nlinarith)
          _ (fun p => rfl) kw 0
      · exact sorted_hybridLE_map_enumFrom
          (fun j => 0 * (1 - 0) + (1 - (j : ℚ) / (sem.length : ℚ)) * 0)
          (fun i j _ => le_of_eq (by ring))
          _ (fun p => rfl) sem 0
      · intro a ha b hb
        rcases List.mem_map.mp ha with ⟨p, hp, rfl⟩
        rcases List.mem_map.mp hb with ⟨q, hq, rfl⟩
        show 0 * (1 - 0) + (1 - (q.1 : ℚ) / (sem.length : ℚ)) * 0 ≤
          (1 - (p.1 : ℚ) / (kw.length : ℚ)) * (1 - 0) + 0 * 0
        have hplt : (p.1 : ℚ) < (kw.length : ℚ) := by
          have := List.fst_lt_add_of_mem_enumFrom hp
          exact_mod_cast (by omega : p.1 < kw.length)
        have := one_sub_div_pos (kw.length : ℚ) p.1 hplt
        nlinarith
    rw [hsorted.insertionSort_eq, List.take_append_eq_append_take]
    have hlen : (kw.enum.map (fun p =>
        (⟨p.2, 1 - (p.1 : ℚ) / (kw.length : ℚ), 0,
          (1 - (p.1 : ℚ) / (kw.length : ℚ)) * (1 - 0) + 0 * 0⟩ :
          ScoredEntry))).length = kw.length := by
      rw [List.length_map, List.enum_length]
    rw [hlen, Nat.sub_eq_zero_of_le hk, List.take_zero, List.append_nil,
      List.map_take, List.map_map]
    have : kw.enum.map ((fun e : ScoredEntry => e.doc) ∘ (fun p =>
        (⟨p.2, 1 - (p.1 : ℚ) / (kw.length : ℚ), 0,
          (1 - (p.1 : ℚ) / (kw.length : ℚ)) * (1 - 0) + 0 * 0⟩ :
          ScoredEntry))) = kw := List.enum_map_snd kw
    rw [this]
  · -- reranking_factor = 1: semantic-only ranking
    intro hk
    show ((List.insertionSort hybridLE
        ((withCombined 1 (processSemanticResults
          (processKeywordResults kw) sem)).map Prod.snd)).take k).map
        (fun e => e.doc) = sem.take k
    have hval : (withCombined 1 (processSemanticResults
        (processKeywordResults kw) sem)).map Prod.snd =
      kw.enum.map (fun p =>
        (⟨p.2, 1 - (p.1 : ℚ) / (kw.length : ℚ), 0,
          (1 - (p.1 : ℚ) / (kw.length : ℚ)) * (1 - 1) + 0 * 1⟩ :
          ScoredEntry)) ++
      sem.enum.map (fun p =>
        (⟨p.2, 0, 1 - (p.1 : ℚ) / (sem.length : ℚ),
          0 * (1 - 1) + (1 - (p.1 : ℚ) / (sem.length : ℚ)) * 1⟩ :
          ScoredEntry)) := by
      rw [processSemanticResults_eq _ sem hsem hdisj2,
        processKeywordResults_eq kw hkw, withCombined,
        List.map_append, List.map_map, List.map_map, List.map_append,
        List.map_map, List.map_map]
      rfl
    rw [hval]
    have hzsort : List.insertionSort hybridLE
        (kw.enum.map (fun p =>
          (⟨p.2, 1 - (p.1 : ℚ) / (kw.length : ℚ), 0,
            (1 - (p.1 : ℚ) / (kw.length : ℚ)) * (1 - 1) + 0 * 1⟩ :
            ScoredEntry)) ++
        sem.enum.map (fun p =>
          (⟨p.2, 0, 1 - (p.1 : ℚ) / (sem.length : ℚ),
            0 * (1 - 1) + (1 - (p.1 : ℚ) / (sem.length : ℚ)) * 1⟩ :
            ScoredEntry))) =
        sem.enum.map (fun p =>
          (⟨p.2, 0, 1 - (p.1 : ℚ) / (sem.length : ℚ),
            0 * (1 - 1) + (1 - (p.1 : ℚ) / (sem.length : ℚ)) * 1⟩ :
            ScoredEntry)) ++
        kw.enum.map (fun p =>
          (⟨p.2, 1 - (p.1 : ℚ) / (kw.length : ℚ), 0,
            (1 - (p.1 : ℚ) / (kw.length : ℚ)) * (1 - 1) + 0 * 1⟩ :
            ScoredEntry)) := by
      refine insertionSort_zeros_append _ _ ?_ ?_ ?_
      · intro a ha
        rcases List.mem_map.mp ha with ⟨p, _, rfl⟩
        show (1 - (p.1 : ℚ) / (kw.length : ℚ)) * (1 - 1) + 0 * 1 = 0
        ring
      · intro b hb
        rcases List.mem_map.mp hb with ⟨q, hq, rfl⟩
        show 0 < 0 * (1 - 1) + (1 - (q.1 : ℚ) / (sem.length : ℚ)) * 1
        have hqlt : (q.1 : ℚ) < (sem.length : ℚ) := by
          have := List.fst_lt_add_of_mem_enumFrom hq
          exact_mod_cast (by omega : q.1 < sem.length)
        have := one_sub_div_pos (sem.length : ℚ) q.1 hqlt
        nlinarith
      · exact sorted_hybridLE_map_enumFrom
          (fun j => 0 * (1 - 1) + (1 - (j : ℚ) / (sem.length : ℚ)) * 1)
          (fun i j hij => by
            have := one_sub_div_antitone (sem.length : ℚ) hm0 i j hij
            nlinarith)
          _ (fun p => rfl) sem 0
    rw [hzsort, List.take_append_eq_append_take]
    have hlen : (sem.enum.map (fun p =>
        (⟨p.2, 0, 1 - (p.1 : ℚ) / (sem.length : ℚ),
          0 * (1 - 1) + (1 - (p.1 : ℚ) / (sem.length : ℚ)) * 1⟩ :
          ScoredEntry))).length = sem.length := by
      rw [List.length_map, List.enum_length]
    rw [hlen, Nat.sub_eq_zero_of_le hk, List.take_zero, List.append_nil,
      List.map_take, List.map_map]
    have : sem.enum.map ((fun e : ScoredEntry => e.doc) ∘ (fun p =>
        (⟨p.2, 0, 1 - (p.1 : ℚ) / (sem.length : ℚ),
          0 * (1 - 1) + (1 - (p.1 : ℚ) / (sem.length : ℚ)) * 1⟩ :
          ScoredEntry))) = sem := List.enum_map_snd sem
    rw [this]

/-- Witness for C4: with one document per list and `k = 1`, weight 0
returns exactly the keyword list and weight 1 exactly the semantic list. -/
theorem C4_fusion_boundary_witness :
    ((([docA] : List Document) ++ [docB]).map docKey).Nodup ∧
    MongoKnowledgeBase.hybrid_search [docA] [docB] 1 0 = [docA].take 1 ∧
    MongoKnowledgeBase.hybrid_search [docA] [docB] 1 1 = [docB].take 1 :=
  ⟨by decide,
   (C4_fusion_boundary [docA] [docB] 1 (by decide)).1 (by decide),
   (C4_fusion_boundary [docA] [docB] 1 (by decide)).2 (by decide)⟩

/- ===== context aggregation (agents/enhanced_orchestrator.py) ===== -/

/-- The `properties` sub-dictionary of a recommended-location record from
the knowledge graph.  Numeric fields are only ever interpolated into
result strings (`f"{x:.2f}"`), so they are carried as their rendered
strings. -/
structure LocProperties : Type where
  foot_traffic : String
  competition_score : String
  growth_potential : String
  rent_score : String
  popular_cuisines : List String
  demographics : List String
deriving DecidableEq, Repr

/-- A location record returned by `recommend_locations` /
`get_detailed_location_info`; `properties` is `none` when the key is
missing or the sub-dictionary empty (both falsy in the source). -/
structure LocationRec : Type where
  area : String
  score : String
  properties : Option LocProperties
deriving DecidableEq, Repr

/-- A regulation record returned by `get_regulatory_info`; empty strings
and lists are falsy, matching the source's truthiness guards. -/
structure RegulationRec : Type where
  type : String
  description : String
  authority : String
  requirements : List String
  timeline : String
  cost : String
  renewal : String
deriving DecidableEq, Repr

/-- A cuisine-preference record returned by `get_cuisine_preferences`. -/
structure CuisinePref : Type where
  cuisine_type : String
  score : String
  popularity : String
deriving DecidableEq, Repr

/-- A city-demographics record returned by
`get_detailed_city_demographics`; `population` is `none` when the key is
missing (the source renders `Unknown` then). -/
structure CityDemographics : Type where
  population : Option String
  demographics : List String
  key_markets : List String
deriving DecidableEq, Repr

/-- The knowledge-graph store interface used by `retrieve_context`.  The
Neo4j-backed methods do not catch their own errors, so each lookup may
raise — modelled as `Except`.  `recommend_locations` takes the
`cuisine_type` argument; the empty string stands for the `None` default. -/
structure KGStore : Type where
  recommend_locations : String → String → Except String (List LocationRec)
  get_regulatory_info : String → Except String (List RegulationRec)
  get_cuisine_preferences : String → Except String (List CuisinePref)
  get_detailed_location_info : String → String →
    Except String (List LocationRec)
  get_detailed_city_demographics : String →
    Except String (Option CityDemographics)

/-- Location insight formatting of the `location_recommender` branch. -/
def formatLocationInsight (loc : LocationRec) : String :=
  let insight := "Location: " ++ loc.area ++ " - Overall Score: " ++
    loc.score ++ "\n"
  match loc.properties with
  | none => insight
  | some props =>
      let insight := insight ++
        "  - Foot Traffic: " ++ props.foot_traffic ++ "\n" ++
        "  - Competition Level: " ++ props.competition_score ++ "\n" ++
        "  - Growth Potential: " ++ props.growth_potential ++ "\n" ++
        "  - Rent Value (lower is better): " ++ props.rent_score ++ "\n"
      let insight :=
        if props.popular_cuisines.isEmpty then insight
        else insight ++ "  - Popular Cuisines: " ++
          String.intercalate ", " props.popular_cuisines ++ "\n"
      if props.demographics.isEmpty then insight
      else insight ++ "  - Key Demographics: " ++
        String.intercalate ", " props.demographics ++ "\n"

/-- Regulation insight formatting of the `regulatory_advisor` branch. -/
def formatRegulationInsight (reg : RegulationRec) : String :=
  let insight := "Regulation: " ++ reg.type ++ "\n" ++
    "Description: " ++ reg.description ++ "\n" ++
    "Authority: " ++ reg.authority ++ "\n"
  let insight :=
    if reg.requirements.isEmpty then insight
    else insight ++ "Requirements:\n" ++
      String.join (reg.requirements.map (fun r => "  - " ++ r ++ "\n"))
  let insight :=
    if reg.timeline == "" then insight
    else insight ++ "Timeline: " ++ reg.timeline ++ "\n"
  let insight :=
    if reg.cost == "" then insight
    else insight ++ "Cost: " ++ reg.cost ++ "\n"
  if reg.renewal == "" then insight
  else insight ++ "Renewal: " ++ reg.renewal ++ "\n"

/-- Per-location insight of the `market_analysis` branch: locations
without a truthy `properties` dictionary are skipped entirely. -/
def formatMarketLocationInsight (loc : LocationRec) : Option String :=
  loc.properties.map (fun props =>
    "Area: " ++ loc.area ++ "\n" ++
    "  - Foot Traffic: " ++ props.foot_traffic ++ "\n" ++
    "  - Competition Level: " ++ props.competition_score ++ "\n" ++
    "  - Growth Potential: " ++ props.growth_potential ++ "\n" ++
    (if props.demographics.isEmpty then ""
     else "  - Key Demographics: " ++
       String.intercalate ", " props.demographics ++ "\n"))

/-- Source provenance entry built from a document's metadata; page and
chunk numbers are carried as rendered strings. -/
structure SourceInfo : Type where
  file_name : String
  category : String
  page : String
  chunk_id : String
deriving DecidableEq, Repr

/-- The `source_info` dictionary of the provenance loop. -/
def sourceInfoOf (doc : Document) : SourceInfo :=
  { file_name := dictGet doc.metadata "file_name" "Unknown",
    category := dictGet doc.metadata "category" "general",
    page := dictGet doc.metadata "page_number" "0",
    chunk_id := dictGet doc.metadata "chunk_id" "0" }

/-- The provenance loop: collect source records, skipping duplicates. -/
def dedupSources (docs : List Document) : List SourceInfo :=
  docs.foldl
    (fun sources doc =>
      let s := sourceInfoOf doc
      if s ∈ sources then sources else sources ++ [s])
    []

/-- The outputs `retrieve_context` writes back into the graph state. -/
structure RetrievedContext : Type where
  kb_context : String
  kg_insights : String
  sources : List SourceInfo
  last_kb_context : List String
  last_kg_insights : List String
deriving DecidableEq, Repr

/-- City gazetteer of the basic-query branch of `retrieve_context`. -/
def basic_city_names : List String :=
  ["mumbai", "delhi", "bangalore", "chennai", "hyderabad", "kolkata",
   "pune", "ahmedabad"]

/-- `retrieve_context` (enhanced_orchestrator.py).  `kb` is the document
store's `hybrid_search(query, filter-types, k)` — total, because that
method catches all its own errors; `kg` is the knowledge-graph store,
whose lookups may raise; `latest_query` is the content of the last (human)
message.  The local variables `kb_context` and `kg_insights` are
initialized to empty lists, but `kb_docs` is not: it is only assigned
inside branch-specific guards, and the trailing provenance code reads
`if kb_docs:` unconditionally — `kb_docs = none` there models the
variable being unbound, which raises `UnboundLocalError` in Python.  The
`domain_keywords` parameter is never produced by the router (parameters
are strings), so its `.get(..., [])` is embedded as the empty list. -/
def retrieve_context (kb : String → List String → Nat → List Document)
    (kg : KGStore) (agent_name : String)
    (parameters : List (String × String)) (role : String)
    (latest_query : String) : Except String RetrievedContext := do
  let has_kb_access := check_permission role "kb" "read"
  let has_kg_access := check_permission role "kg" "read"
  let (kb_context, kg_insights, kb_docs) ←
    if agent_name == "location_recommender" then do
      let city := dictGet parameters "city" ""
      let cuisine := dictGet parameters "cuisine" ""
      let concept := dictGet parameters "concept" ""
      let demographic := dictGet parameters "demographic" ""
      let (kb_context, kb_docs) :=
        if has_kb_access && !(city == "") then
          let query_parts := ["restaurant locations in " ++ city]
          let query_parts := query_parts ++
            (if !(cuisine == "") then [cuisine ++ " cuisine"] else [])
          let query_parts := query_parts ++
            (if !(concept == "") then [concept ++ " restaurant concept"]
             else [])
          let query_parts := query_parts ++
            (if !(demographic == "") then
              ["for " ++ demographic ++ " demographic"] else [])
          let query := String.intercalate " " query_parts ++
            " commercial real estate market insights foot traffic"
          let kb_docs :=
            kb query ["real_estate", "demographics", "food_consumption"] 5
          (kb_docs.map (fun d => d.page_content), some kb_docs)
        else ([], none)
      if has_kg_access && !(city == "") then do
        let locations ← kg.recommend_locations city cuisine
        pure (kb_context, locations.map formatLocationInsight, kb_docs)
      else pure (kb_context, [], kb_docs)
    else if agent_name == "regulatory_advisor" then do
      let city := dictGet parameters "city" ""
      let restaurant_type := dictGet parameters "restaurant_type" ""
      let serves_alcohol := dictGet parameters "serves_alcohol" "No"
      let (kb_context, kb_docs) :=
        if has_kb_access && !(city == "") then
          let query_parts := ["restaurant regulations in " ++ city]
          let query_parts := query_parts ++
            (if !(restaurant_type == "") then [restaurant_type] else [])
          let query_parts := query_parts ++
            (if pyLower serves_alcohol == "yes" then
              ["liquor license alcohol serving requirements"] else [])
          let query := String.intercalate " " query_parts ++
            " licensing permits requirements"
          let kb_docs := kb query ["regulation", "food_consumption"] 5
          (kb_docs.map (fun d => d.page_content), some kb_docs)
        else ([], none)
      if has_kg_access && !(city == "") then do
        let regulations ← kg.get_regulatory_info city
        pure (kb_context, regulations.map formatRegulationInsight, kb_docs)
      else pure (kb_context, [], kb_docs)
    else if agent_name == "market_analysis" then do
      let city := dictGet parameters "city" ""
      let cuisine := dictGet parameters "cuisine" ""
      let concept := dictGet parameters "concept" ""
      let area := dictGet parameters "area" ""
      let (kb_context, kb_docs) :=
        if has_kb_access && !(city == "") then
          let query_parts := ["restaurant market analysis in " ++ city]
          let query_parts := query_parts ++
            (if !(cuisine == "") then [cuisine ++ " cuisine"] else [])
          let query_parts := query_parts ++
            (if !(concept == "") then [concept ++ " concept"] else [])
          let query_parts := query_parts ++
            (if !(area == "") then [area ++ " area"] else [])
          let query := String.intercalate " " query_parts ++
            " consumer trends competition demographics food preferences"
          let kb_docs :=
            kb query ["food_consumption", "demographics", "real_estate"] 5
          (kb_docs.map (fun d => d.page_content), some kb_docs)
        else ([], none)
      if has_kg_access && !(city == "") then do
        let cuisine_preferences ← kg.get_cuisine_preferences city
        let locations ←
          if !(area == "") then kg.get_detailed_location_info city area
          else do
            let l ← kg.recommend_locations city ""
            pure (l.take 3)
        let cuisine_insights := cuisine_preferences.map (fun c =>
          "Cuisine: " ++ c.cuisine_type ++ " - Popularity Score: " ++ c.score)
        let location_insights :=
          locations.filterMap formatMarketLocationInsight
        let kg_insights :=
          (if cuisine_insights.isEmpty then []
           else ["== Cuisine Preferences =="] ++ cuisine_insights) ++
          (if location_insights.isEmpty then []
           else ["\n== Location Analysis =="] ++ location_insights)
        pure (kb_context, kg_insights, kb_docs)
      else pure (kb_context, [], kb_docs)
    else if agent_name == "pdf_research" then do
      let research_topic := dictGet parameters "research_topic" ""
      let specific_focus := dictGet parameters "specific_focus" ""
      let city := dictGet parameters "city" ""
      let (kb_context, kb_docs) :=
        if has_kb_access then
          let query_parts := ["restaurant business research"]
          let query_parts := query_parts ++
            (if !(research_topic == "") then [research_topic] else [])
          let query_parts := query_parts ++
            (if !(specific_focus == "") then [specific_focus] else [])
          let query_parts := query_parts ++
            (if !(city == "") then ["in " ++ city] else [])
          let query := String.intercalate " " query_parts ++
            " studies reports findings data statistics"
          let kb_docs := kb query
            ["research", "food_consumption", "demographics", "real_estate"] 8
          (kb_docs.map (fun d => d.page_content), some kb_docs)
        else ([], none)
      if has_kg_access && !(city == "") then do
        let regulations ← kg.get_regulatory_info city
        let cuisine_preferences ← kg.get_cuisine_preferences city
        let kg_insights :=
          ["=== Research Data for " ++ city ++ " ===",
           "City has " ++ toString regulations.length ++
             " documented regulatory frameworks"] ++
          (if cuisine_preferences.isEmpty then []
           else ["\nCuisine Preference Data:"] ++
             (cuisine_preferences.take 5).map (fun p =>
               "- " ++ p.cuisine_type ++ ": " ++ p.score ++
                 " popularity score")) ++
          (if regulations.isEmpty then []
           else ["\nRegulatory Framework Overview:"] ++
             (regulations.take 3).map (fun r =>
               "- " ++ r.type ++ " (Governing Body: " ++ r.authority ++ ")"))
        pure (kb_context, kg_insights, kb_docs)
      else pure (kb_context, [], kb_docs)
    else if agent_name == "domain_specialist" then do
      let (kb_context, kb_docs) :=
        if has_kb_access then
          let city := dictGet parameters "city" ""
          let search_query := latest_query ++
            (if !(city == "") then " in " ++ city else "")
          let kb_docs := kb search_query [] 5
          (kb_docs.map (fun d => d.page_content), some kb_docs)
        else ([], none)
      if has_kg_access then do
        let city := dictGet parameters "city" ""
        if !(city == "") then do
          let city_data ← kg.get_detailed_city_demographics city
          let part1 :=
            match city_data with
            | some cd =>
                ["== City Demographics for " ++ city ++ " ==",
                 "Population: " ++ cd.population.getD "Unknown"] ++
                (if cd.demographics.isEmpty then []
                 else ["Key Demographics:"] ++
                   (cd.demographics.take 3).map (fun x => "- " ++ x)) ++
                (if cd.key_markets.isEmpty then []
                 else ["Key Markets:"] ++
                   (cd.key_markets.take 3).map (fun x => "- " ++ x))
            | none => []
          let cuisine_prefs ← kg.get_cuisine_preferences city
          let part2 :=
            if cuisine_prefs.isEmpty then []
            else ["\n== Popular Cuisines in " ++ city ++ " =="] ++
              (cuisine_prefs.take 3).map (fun p =>
                "- " ++ p.cuisine_type ++ ": " ++ p.popularity ++
                  " popularity score")
          pure (kb_context, part1 ++ part2, kb_docs)
        else pure (kb_context, [], kb_docs)
      else pure (kb_context, [], kb_docs)
    else do
      let query_lower := pyLower latest_query
      let city :=
        match basic_city_names.find? (fun c => substrIn c query_lower) with
        | some c => some c.capitalize
        | none => none
      let (kb_context, kb_docs) :=
        if has_kb_access then
          let kb_docs := kb latest_query [] 3
          (kb_docs.map (fun d => d.page_content), some kb_docs)
        else ([], none)
      match city with
      | some city =>
          if has_kg_access then do
            let regulations ← kg.get_regulatory_info city
            let locations ← kg.recommend_locations city ""
            let locations := locations.take 3
            let cuisine_preferences ← kg.get_cuisine_preferences city
            let cuisine_preferences := cuisine_preferences.take 3
            let kg_insights :=
              ["City: " ++ city,
               "Number of regulations: " ++ toString regulations.length,
               "Top locations: " ++
                 String.intercalate ", " (locations.map (fun l => l.area)),
               "Popular cuisines: " ++
                 String.intercalate ", "
                   (cuisine_preferences.map (fun p => p.cuisine_type))]
            pure (kb_context, kg_insights, kb_docs)
          else pure (kb_context, [], kb_docs)
      | none => pure (kb_context, [], kb_docs)
  match kb_docs with
  | none =>
      Except.error
        "UnboundLocalError: local variable kb_docs referenced before assignment"
  | some docs =>
      pure
        { kb_context := String.intercalate "\n\n" (kb_context.take 5),
          kg_insights := String.intercalate "\n\n" (kg_insights.take 8),
          sources := dedupSources docs,
          last_kb_context := kb_context.take 2,
          last_kg_insights := kg_insights.take 3 }

/-- C3 (code bug).  `retrieve_context` raises for the routed agent
`location_recommender` whenever no city parameter was extracted, even for
a role with full read access and with both stores healthy: no branch
assigns `kb_docs`, and the provenance step's unconditional `if kb_docs:`
read hits an unassigned local — instead of the claimed never-raising
degradation to empty context lists. -/
theorem C3_retrieve_context_raises
    (kb : String → List String → Nat → List Document) (kg : KGStore)
    (latest_query : String) :
    retrieve_context kb kg "location_recommender" [] "analyst"
        latest_query =
      Except.error
        "UnboundLocalError: local variable kb_docs referenced before assignment" :=
  rfl

end RestaurantAdvisor
